import Mathlib

/-!
Verification of the promtotwilio webhook bridge (Go) against its
natural-language specification, by shallow embedding in Lean 4.

Go strings are modelled as byte lists (`List UInt8`): Go `len`, slicing and
`strings.ReplaceAll` all operate on bytes.  All code-side definitions are
translated from the repository sources:
  * `internal/handler/utils.go`   — ParseReceivers, FindAndReplaceLabels, TruncateMessage
  * `internal/handler/format.go`  — FormatMessage, Metrics
  * `internal/handler/middleware.go` — RateLimiter
  * the Twilio HTTP client with retries (TwilioHTTPClient.SendMessage)
  * the HTTP handler (Handler.SendRequest / Handler.sendMessage)
Definitions whose names end in `Spec` restate sentences of the specification
and are compared with the code-side definitions in refinement theorems.
-/

namespace Promtotwilio

/-- Byte-string literal helper: encodes an ASCII Lean string literal as the
byte list of the corresponding Go string.  (Only used with ASCII literals.) -/
def gs (s : String) : List UInt8 :=
  s.data.map (fun c => UInt8.ofNat c.toNat)

/-- Go `int`: modelled as `Int`. Go `len(s)` of a byte string. -/
def goLen (s : List UInt8) : Int :=
  (s.length : Int)

/-- Go slice expression `s[:n]` on a string: panics (modelled as `none`) unless
`0 ≤ n ≤ len(s)`. -/
def goSliceTo (s : List UInt8) (n : Int) : Option (List UInt8) :=
  if 0 ≤ n ∧ n ≤ goLen s then some (s.take n.toNat) else none

/-- `TruncateMessage` from `internal/handler/utils.go`:

    func TruncateMessage(msg string, maxLen int) string {
        if len(msg) <= maxLen { return msg }
        if maxLen <= 3 { return msg[:maxLen] }
        return msg[:maxLen-3] + "..."
    }

`none` models a Go slice-bounds panic (possible only for `maxLen < 0`). -/
def TruncateMessage (msg : List UInt8) (maxLen : Int) : Option (List UInt8) :=
  if goLen msg ≤ maxLen then some msg
  else if maxLen ≤ 3 then goSliceTo msg maxLen
  else (goSliceTo msg (maxLen - 3)).map (fun t => t ++ gs "...")

/-- `Alert` from the handler package (JSON payload element).  Go string maps
are modelled as association lists with unique keys; a `nil` map is `[]`. -/
structure Alert where
  Status : List UInt8
  Labels : List (List UInt8 × List UInt8)
  Annotations : List (List UInt8 × List UInt8)
  StartsAt : List UInt8
  EndsAt : List UInt8
  GeneratorURL : List UInt8
  deriving DecidableEq, Repr

/-- `Alert.GetLabel`: the value of a label, or empty string if not present
(Go map lookup with zero-value default; a nil map also yields ""). -/
def Alert.getLabel (a : Alert) (name : List UInt8) : List UInt8 :=
  (a.Labels.lookup name).getD []

/-- The `GetAnnotation` method of `Alert` (renamed here): the value of an
annotation, or empty string if not present. -/
def Alert.getAnn (a : Alert) (name : List UInt8) : List UInt8 :=
  (a.Annotations.lookup name).getD []

/-- Byte class `[a-zA-Z_]` of the `labelReg` regular expression
`\$labels\.[a-zA-Z_][a-zA-Z0-9_]*` from `internal/handler/utils.go`. -/
def isAlphaU (b : UInt8) : Bool :=
  (65 ≤ b.toNat && b.toNat ≤ 90) || (97 ≤ b.toNat && b.toNat ≤ 122) || b.toNat == 95

/-- Byte class `[a-zA-Z0-9_]` of `labelReg`. -/
def isAlnumU (b : UInt8) : Bool :=
  isAlphaU b || (48 ≤ b.toNat && b.toNat ≤ 57)

/-- Match of `labelReg` anchored at the head of `s`: returns `some k` when
`s` starts with `$labels.` followed by `[a-zA-Z_]` and then `k` further
`[a-zA-Z0-9_]` bytes taken greedily, so the whole match has `9 + k` bytes. -/
def matchLabelTail (s : List UInt8) : Option Nat :=
  if (gs "$labels.").isPrefixOf s then
    match s.drop 8 with
    | [] => none
    | b :: rest => if isAlphaU b then some ((rest.takeWhile isAlnumU).length) else none
  else none

/-- `labelReg.FindAllString(body, -1)`: leftmost non-overlapping matches,
scanning left to right.  The fuel argument only serves structural
termination; every recursive call consumes at least one byte, so
`fuel = s.length` (as used by `findAllLabels`) never runs out. -/
def findAllLabelsFuel : Nat → List UInt8 → List (List UInt8)
  | 0, _ => []
  | _, [] => []
  | fuel + 1, c :: rest =>
    match matchLabelTail (c :: rest) with
    | some k =>
        (c :: rest).take (9 + k) :: findAllLabelsFuel fuel ((c :: rest).drop (9 + k))
    | none => findAllLabelsFuel fuel rest

/-- All matches of `labelReg` in `s`, in order of occurrence (duplicates
included), as returned by `FindAllString(s, -1)`. -/
def findAllLabels (s : List UInt8) : List (List UInt8) :=
  findAllLabelsFuel s.length s

/-- One step of `strings.ReplaceAll(s, old, new)`: replace the leftmost
occurrences of `old`, skipping past each replacement (non-overlapping).
Fuel only serves structural termination; each call consumes at least one
byte when `old` is non-empty, so `fuel = s.length` suffices. -/
def replaceAllFuel (old new : List UInt8) : Nat → List UInt8 → List UInt8
  | 0, s => s
  | fuel + 1, s =>
    match s with
    | [] => []
    | c :: rest =>
      if old.isPrefixOf (c :: rest) then
        new ++ replaceAllFuel old new fuel ((c :: rest).drop old.length)
      else c :: replaceAllFuel old new fuel rest

/-- `strings.ReplaceAll(s, old, new)`.  The Go function inserts `new` around
every character when `old` is empty; that case is modelled as the identity
because every pattern passed here is a `labelReg` match of length ≥ 9. -/
def replaceAll (s old new : List UInt8) : List UInt8 :=
  if old.isEmpty then s else replaceAllFuel old new s.length s

/-- The body of the loop in `FindAndReplaceLabels`: split the match on `.`
(byte 46); when the split has exactly two parts, globally replace the match
with the value of the label named by the second part. -/
def replaceStep (alert : Alert) (b m : List UInt8) : List UInt8 :=
  match m.splitOn 46 with
  | [_, name] => replaceAll b m (Alert.getLabel alert name)
  | _ => b

/-- `FindAndReplaceLabels` from `internal/handler/utils.go`:

    matches := labelReg.FindAllString(body, -1)
    for _, match := range matches {
        labelName := strings.Split(match, ".")
        if len(labelName) == 2 {
            replaceWith := alert.GetLabel(labelName[1])
            body = strings.ReplaceAll(body, match, replaceWith)
        }
    }
    return body
-/
def FindAndReplaceLabels (body : List UInt8) (alert : Alert) : List UInt8 :=
  (findAllLabels body).foldl (replaceStep alert) body

/-- Does `pat` occur as a contiguous subsequence of `s`?  (Used only to state
properties; Go's code does not compute this.) -/
def hasSub (s pat : List UInt8) : Bool :=
  match s with
  | [] => pat.isEmpty
  | c :: rest => pat.isPrefixOf (c :: rest) || hasSub rest pat

/-- Concrete alert for exercising `FindAndReplaceLabels`: label `a` has the
value `$labels.b` (which textually contains the placeholder for label `b`),
and label `b` has the value `X`. -/
def cexC3Alert : Alert :=
  { Status := gs "firing"
    Labels := [(gs "a", gs "$labels.b"), (gs "b", gs "X")]
    Annotations := []
    StartsAt := []
    EndsAt := []
    GeneratorURL := [] }

/-- Is `b` a UTF-8 continuation byte (`0x80–0xBF`)? -/
def isContB (b : UInt8) : Bool :=
  128 ≤ b.toNat && b.toNat ≤ 191

/-- `unicode.IsSpace` on a code point: Unicode White_Space — the ASCII
spaces `\t \n \v \f \r ' '`, NEL (U+0085), NBSP (U+00A0), U+1680,
U+2000–U+200A, U+2028, U+2029, U+202F, U+205F and U+3000. -/
def isSpaceRune (r : Nat) : Bool :=
  r == 9 || r == 10 || r == 11 || r == 12 || r == 13 || r == 32 ||
  r == 133 || r == 160 || r == 5760 || (8192 ≤ r && r ≤ 8202) ||
  r == 8232 || r == 8233 || r == 8239 || r == 8287 || r == 12288

/-- `utf8.DecodeRuneInString`: the first code point of `s` and its encoded
size.  An invalid, overlong, surrogate, out-of-range or truncated encoding
yields `(U+FFFD, 1)` (and `(U+FFFD, 0)` on the empty string, as in Go). -/
def decodeFirstRune : List UInt8 → Nat × Nat
  | [] => (65533, 0)
  | b0 :: rest =>
    let n0 := b0.toNat
    if n0 < 128 then (n0, 1)
    else if 194 ≤ n0 && n0 ≤ 223 then
      match rest with
      | b1 :: _ =>
        if isContB b1 then ((n0 - 192) * 64 + (b1.toNat - 128), 2) else (65533, 1)
      | [] => (65533, 1)
    else if 224 ≤ n0 && n0 ≤ 239 then
      match rest with
      | b1 :: b2 :: _ =>
        let lo := if n0 = 224 then 160 else 128
        let hi := if n0 = 237 then 159 else 191
        if (lo ≤ b1.toNat && b1.toNat ≤ hi) && isContB b2 then
          ((n0 - 224) * 4096 + (b1.toNat - 128) * 64 + (b2.toNat - 128), 3)
        else (65533, 1)
      | _ => (65533, 1)
    else if 240 ≤ n0 && n0 ≤ 244 then
      match rest with
      | b1 :: b2 :: b3 :: _ =>
        let lo := if n0 = 240 then 144 else 128
        let hi := if n0 = 244 then 143 else 191
        if ((lo ≤ b1.toNat && b1.toNat ≤ hi) && isContB b2) && isContB b3 then
          ((n0 - 240) * 262144 + (b1.toNat - 128) * 4096 +
            (b2.toNat - 128) * 64 + (b3.toNat - 128), 4)
        else (65533, 1)
      | _ => (65533, 1)
    else (65533, 1)

/-- `utf8.DecodeLastRuneInString`: the last code point of `s` and its size.
A final ASCII byte decodes as itself; otherwise Go scans back at most 3
further bytes for a non-continuation byte, forward-decodes from there and
insists the decoded size reach the end of the string, yielding
`(U+FFFD, 1)` on any failure. -/
def decodeLastRune (s : List UInt8) : Nat × Nat :=
  match s.reverse with
  | [] => (65533, 0)
  | r0 :: rrest =>
    if r0.toNat < 128 then (r0.toNat, 1)
    else
      match rrest with
      | [] => (65533, 1)
      | b1 :: rrest2 =>
        if isContB b1 then
          match rrest2 with
          | [] => (65533, 1)
          | b2 :: rrest3 =>
            if isContB b2 then
              match rrest3 with
              | [] => (65533, 1)
              | b3 :: _ =>
                if isContB b3 then (65533, 1)
                else
                  let d := decodeFirstRune [b3, b2, b1, r0]
                  if d.2 = 4 then d else (65533, 1)
            else
              let d := decodeFirstRune [b2, b1, r0]
              if d.2 = 3 then d else (65533, 1)
        else
          let d := decodeFirstRune [b1, r0]
          if d.2 = 2 then d else (65533, 1)

/-- Trim leading White_Space code points (the left half of
`strings.TrimSpace`: the ASCII fast path and `TrimLeftFunc(unicode.IsSpace)`
agree with decoding the first rune and dropping it while it is a space).
Fuel only serves structural termination; each step consumes at least one
byte, so `fuel = s.length` suffices. -/
def trimLeftSpaceFuel : Nat → List UInt8 → List UInt8
  | 0, s => s
  | fuel + 1, [] => []
  | fuel + 1, b :: rest =>
    let d := decodeFirstRune (b :: rest)
    if isSpaceRune d.1 then trimLeftSpaceFuel fuel ((b :: rest).drop d.2)
    else b :: rest

/-- Trim trailing White_Space code points (the right half of
`strings.TrimSpace`). -/
def trimRightSpaceFuel : Nat → List UInt8 → List UInt8
  | 0, s => s
  | fuel + 1, [] => []
  | fuel + 1, b :: rest =>
    let d := decodeLastRune (b :: rest)
    if isSpaceRune d.1 then
      trimRightSpaceFuel fuel ((b :: rest).take ((b :: rest).length - d.2))
    else b :: rest

/-- `strings.TrimSpace`: remove leading and trailing Unicode White_Space
code points (UTF-8 decoded; invalid bytes decode as U+FFFD, which is not a
space, and stop the trimming). -/
def trimSpace (s : List UInt8) : List UInt8 :=
  trimRightSpaceFuel s.length (trimLeftSpaceFuel s.length s)

/-- The result of `time.Parse(time.RFC3339, ...)`: the wall-clock fields as
written, the zone offset, and whether the zone was written `Z` (location
UTC, so `Format` prints the zone name `UTC`) or as a numeric offset
(a fabricated nameless zone, so `Format` prints `±hhmm`). -/
structure GoTime where
  year : Nat
  month : Nat
  day : Nat
  hour : Nat
  minute : Nat
  second : Nat
  nsec : Nat
  offsetSec : Int
  zuluUTC : Bool
  deriving DecidableEq, Repr

/-- Numeric value of an ASCII digit byte. -/
def digitVal (b : UInt8) : Option Nat :=
  if 48 ≤ b.toNat ∧ b.toNat ≤ 57 then some (b.toNat - 48) else none

/-- Two-digit decimal number. -/
def num2 (a b : UInt8) : Option Nat :=
  match digitVal a, digitVal b with
  | some x, some y => some (x * 10 + y)
  | _, _ => none

/-- Four-digit decimal number. -/
def num4 (a b c d : UInt8) : Option Nat :=
  match num2 a b, num2 c d with
  | some x, some y => some (x * 100 + y)
  | _, _ => none

/-- Gregorian leap year, as in Go's `time` package. -/
def isLeapYear (y : Nat) : Bool :=
  (y % 4 == 0 && y % 100 != 0) || y % 400 == 0

/-- Days in a month, as validated by Go's RFC3339 parser. -/
def daysInMonth (y m : Nat) : Nat :=
  if m = 2 then (if isLeapYear y then 29 else 28)
  else if m = 4 ∨ m = 6 ∨ m = 9 ∨ m = 11 then 30
  else 31

/-- Nanoseconds from a fractional-second digit run (first nine digits are
significant, scaled to nanoseconds). -/
def nsecOfDigits (ds : List UInt8) : Nat :=
  let nine := ds.take 9
  (nine.foldl (fun acc b => acc * 10 + (b.toNat - 48)) 0) * 10 ^ (9 - nine.length)

/-- Optional fractional seconds after `ss`: a `.` (or `,`) followed by at
least one digit.  Returns the nanoseconds and the unconsumed rest. -/
def parseFracPart : List UInt8 → Nat × List UInt8
  | b :: d :: rest =>
    if (b == 46 || b == 44) && (digitVal d).isSome then
      (nsecOfDigits (d :: rest.takeWhile (fun x => (digitVal x).isSome)),
        rest.dropWhile (fun x => (digitVal x).isSome))
    else (0, b :: d :: rest)
  | s => (0, s)

/-- RFC3339 zone suffix: `Z`, or `±hh:mm` with `hh ≤ 23`, `mm ≤ 59`; must
consume the whole rest of the input. -/
def parseZone : List UInt8 → Option (Int × Bool)
  | [90] => some (0, true)
  | [sign, h1, h2, colon, m1, m2] =>
    if (sign == 43 || sign == 45) && colon == 58 then
      match num2 h1 h2, num2 m1 m2 with
      | some hh, some mm =>
        if hh ≤ 23 ∧ mm ≤ 59 then
          some (if sign == 45 then -((hh * 3600 + mm * 60 : Nat) : Int)
                else ((hh * 3600 + mm * 60 : Nat) : Int), false)
        else none
      | _, _ => none
    else none
  | _ => none

/-- `time.Parse(time.RFC3339, s)`: `yyyy-mm-ddThh:mm:ss` with strict
two/four-digit fields and literal `-`, `T` (byte 84), `:` separators,
range-checked (month 1–12, day within month, hour ≤ 23, minute/second ≤ 59),
then optional fractional seconds and a mandatory zone suffix. -/
def parseRFC3339 (s : List UInt8) : Option GoTime :=
  match s with
  | y1 :: y2 :: y3 :: y4 :: p1 :: mo1 :: mo2 :: p2 :: d1 :: d2 :: p3 ::
      h1 :: h2 :: p4 :: mi1 :: mi2 :: p5 :: se1 :: se2 :: rest =>
    if p1 == 45 && p2 == 45 && p3 == 84 && p4 == 58 && p5 == 58 then
      match num4 y1 y2 y3 y4, num2 mo1 mo2, num2 d1 d2,
          num2 h1 h2, num2 mi1 mi2, num2 se1 se2 with
      | some year, some month, some day, some hour, some minute, some second =>
        if 1 ≤ month ∧ month ≤ 12 ∧ 1 ≤ day ∧ day ≤ daysInMonth year month ∧
            hour ≤ 23 ∧ minute ≤ 59 ∧ second ≤ 59 then
          let fr := parseFracPart rest
          match parseZone fr.2 with
          | some z =>
            some { year, month, day, hour, minute, second, nsec := fr.1,
                   offsetSec := z.1, zuluUTC := z.2 }
          | none => none
        else none
      | _, _, _, _, _, _ => none
    else none
  | _ => none

/-- Zero-padded two-digit decimal (Go `appendInt(_, 2)`). -/
def pad2b (n : Nat) : List UInt8 :=
  [UInt8.ofNat (48 + n / 10 % 10), UInt8.ofNat (48 + n % 10)]

/-- Zero-padded four-digit decimal (Go `appendInt(_, 4)`; parsed years are
always in 0–9999). -/
def pad4b (n : Nat) : List UInt8 :=
  [UInt8.ofNat (48 + n / 1000 % 10), UInt8.ofNat (48 + n / 100 % 10),
    UInt8.ofNat (48 + n / 10 % 10), UInt8.ofNat (48 + n % 10)]

/-- Days since 1970-01-01 of a Gregorian civil date (standard civil-days
computation with floor division, as in Go's internal absolute-date code). -/
def daysFromCivil (y m d : Int) : Int :=
  let y2 := if m ≤ 2 then y - 1 else y
  let era := Int.ediv y2 400
  let yoe := y2 - era * 400
  let mp := Int.emod (m + 9) 12
  let doy := Int.ediv (153 * mp + 2) 5 + d - 1
  let doe := yoe * 365 + Int.ediv yoe 4 - Int.ediv yoe 100 + doy
  era * 146097 + doe - 719468

/-- Weekday of a civil date, `0 = Sunday` (1970-01-01 was a Thursday). -/
def weekdayOf (y m d : Nat) : Nat :=
  (Int.emod (daysFromCivil y m d + 4) 7).toNat

/-- Go weekday abbreviations. -/
def weekdayName : Nat → List UInt8
  | 0 => gs "Sun"
  | 1 => gs "Mon"
  | 2 => gs "Tue"
  | 3 => gs "Wed"
  | 4 => gs "Thu"
  | 5 => gs "Fri"
  | _ => gs "Sat"

/-- Go month abbreviations (1-based). -/
def monthName : Nat → List UInt8
  | 1 => gs "Jan"
  | 2 => gs "Feb"
  | 3 => gs "Mar"
  | 4 => gs "Apr"
  | 5 => gs "May"
  | 6 => gs "Jun"
  | 7 => gs "Jul"
  | 8 => gs "Aug"
  | 9 => gs "Sep"
  | 10 => gs "Oct"
  | 11 => gs "Nov"
  | _ => gs "Dec"

/-- The `MST` slot of `time.RFC1123`: the zone name `UTC` for times parsed
with `Z`, else the numeric `±hhmm` offset (fabricated zones have no name). -/
def zoneRFC1123 (t : GoTime) : List UInt8 :=
  if t.zuluUTC then gs "UTC"
  else
    let a := t.offsetSec.natAbs
    (if t.offsetSec < 0 then [45] else [43]) ++ pad2b (a / 3600) ++ pad2b (a % 3600 / 60)

/-- `t.Format(time.RFC1123)`: layout `Mon, 02 Jan 2006 15:04:05 MST`. -/
def formatRFC1123 (t : GoTime) : List UInt8 :=
  weekdayName (weekdayOf t.year t.month t.day) ++ gs ", " ++ pad2b t.day ++
    gs " " ++ monthName t.month ++ gs " " ++ pad4b t.year ++ gs " " ++
    pad2b t.hour ++ gs ":" ++ pad2b t.minute ++ gs ":" ++ pad2b t.second ++
    gs " " ++ zoneRFC1123 t

/-- The fields of the handler `Config` consumed by formatting and dispatch.
`MessagePfx` models the Go field `MessagePrefix` (custom prefix prepended to
all messages). -/
structure Config where
  Sender : List UInt8
  Receivers : List (List UInt8)
  SendResolved : Bool
  MaxMessageLength : Int
  MessagePfx : List UInt8
  DryRun : Bool
  deriving DecidableEq, Repr

/-- The error results of `FormatMessage`: the "alert missing summary and
description annotations" error, and a slice-bounds panic inside
`TruncateMessage` (proved unreachable, since the effective max length is
always ≥ 1). -/
inductive FormatError where
  | missingAnnots
  | slicePanic
  deriving DecidableEq, Repr

/-- `FormatMessage` from `internal/handler/format.go`, translated step by
step: select summary (fallback description, error when both blank after
trimming), interpolate labels, append the RFC1123 timestamp when `startsAt`
parses as RFC3339, prepend `[alertname] `, `RESOLVED: ` and the configured
prefix, then truncate to the configured maximum (default 150 when unset
or ≤ 0). -/
def FormatMessage (alert : Alert) (status : List UInt8) (config : Config) :
    Except FormatError (List UInt8) :=
  let body0 := Alert.getAnn alert (gs "summary")
  let body1 := if trimSpace body0 = [] then Alert.getAnn alert (gs "description") else body0
  if trimSpace body1 = [] then Except.error FormatError.missingAnnots
  else
    let body2 := FindAndReplaceLabels body1 alert
    let body3 :=
      if alert.StartsAt ≠ [] then
        match parseRFC3339 alert.StartsAt with
        | some t => gs "\"" ++ body2 ++ gs "\"" ++ gs " alert starts at " ++ formatRFC1123 t
        | none => body2
      else body2
    let alertName := Alert.getLabel alert (gs "alertname")
    let body4 := if trimSpace alertName ≠ [] then gs "[" ++ alertName ++ gs "] " ++ body3 else body3
    let body5 := if status = gs "resolved" then gs "RESOLVED: " ++ body4 else body4
    let body6 := if config.MessagePfx ≠ [] then config.MessagePfx ++ gs " " ++ body5 else body5
    let maxLen := if config.MaxMessageLength ≤ 0 then 150 else config.MaxMessageLength
    match TruncateMessage body6 maxLen with
    | some r => Except.ok r
    | none => Except.error FormatError.slicePanic

/-- Specification-side decomposition: the source text the formatter selects
(summary if non-blank after trimming, else description). -/
def selectedText (alert : Alert) : List UInt8 :=
  if trimSpace (Alert.getAnn alert (gs "summary")) = [] then
    Alert.getAnn alert (gs "description")
  else Alert.getAnn alert (gs "summary")

/-- Specification-side decomposition: the interpolated text, wrapped in
quotes with the ` alert starts at <RFC1123>` suffix exactly when `startsAt`
parses as RFC3339. -/
def coreText (alert : Alert) : List UInt8 :=
  let b := FindAndReplaceLabels (selectedText alert) alert
  if alert.StartsAt ≠ [] then
    match parseRFC3339 alert.StartsAt with
    | some t => gs "\"" ++ b ++ gs "\"" ++ gs " alert starts at " ++ formatRFC1123 t
    | none => b
  else b

/-- Specification-side decomposition: the innermost `[alertname] ` prefix. -/
def namePart (alert : Alert) : List UInt8 :=
  if trimSpace (Alert.getLabel alert (gs "alertname")) ≠ [] then
    gs "[" ++ Alert.getLabel alert (gs "alertname") ++ gs "] "
  else []

/-- Specification-side decomposition: the `RESOLVED: ` marker. -/
def resolvedPart (status : List UInt8) : List UInt8 :=
  if status = gs "resolved" then gs "RESOLVED: " else []

/-- Specification-side decomposition: the outermost configured prefix. -/
def pfxPart (config : Config) : List UInt8 :=
  if config.MessagePfx ≠ [] then config.MessagePfx ++ gs " " else []

/-- The effective maximum message length (default 150 when unset or ≤ 0). -/
def effMaxLen (config : Config) : Int :=
  if config.MaxMessageLength ≤ 0 then 150 else config.MaxMessageLength

/-- Replace (or insert) a key in an association-list map. -/
def setAssoc (m : List (List UInt8 × List UInt8)) (k v : List UInt8) :
    List (List UInt8 × List UInt8) :=
  match m with
  | [] => [(k, v)]
  | (k0, v0) :: rest => if k0 = k then (k, v) :: rest else (k0, v0) :: setAssoc rest k v

/-- The alert with its `description` annotation set to `d` (all other fields
unchanged); used to state that a non-blank summary makes the description
irrelevant. -/
def Alert.withDesc (a : Alert) (d : List UInt8) : Alert :=
  { a with Annotations := setAssoc a.Annotations (gs "description") d }

/-- A deterministic stand-in for `TwilioClient.SendMessage` as seen by the
dispatcher: arguments `(to, from, body)`, result `true` for a `nil` error. -/
def ClientFn : Type :=
  List UInt8 → List UInt8 → List UInt8 → Bool

/-- `Handler.sendMessage`: format the alert; on a formatting error report
failure without any Twilio call; in dry-run mode report success without any
Twilio call; otherwise make exactly one `SendMessage` call.  The result is
(success?, number of Twilio calls made). -/
def sendMessageUnit (config : Config) (client : ClientFn) (receiver : List UInt8)
    (alert : Alert) (status : List UInt8) : Bool × Nat :=
  match FormatMessage alert status config with
  | Except.error _ => (false, 0)
  | Except.ok body =>
    if config.DryRun then (true, 0)
    else (client receiver config.Sender body, 1)

/-- The mutex-guarded per-unit aggregation state of `Handler.SendRequest`:
response counters, SMS metrics increments, and Twilio calls made. -/
structure UnitAcc where
  sent : Nat
  failed : Nat
  smsSentInc : Nat
  smsFailedInc : Nat
  transportCalls : Nat
  deriving DecidableEq, Repr

/-- One dispatch unit of `Handler.SendRequest`: run `sendMessage` for the
(alert, receiver) pair, then increment `sent` or `failed`, and the
corresponding SMS metrics counter unless dry-run is enabled. -/
def unitStep (config : Config) (client : ClientFn) (status : List UInt8)
    (acc : UnitAcc) (u : Alert × List UInt8) : UnitAcc :=
  let res := sendMessageUnit config client u.2 u.1 status
  if res.1 then
    { acc with
      sent := acc.sent + 1
      smsSentInc := acc.smsSentInc + (if config.DryRun then 0 else 1)
      transportCalls := acc.transportCalls + res.2 }
  else
    { acc with
      failed := acc.failed + 1
      smsFailedInc := acc.smsFailedInc + (if config.DryRun then 0 else 1)
      transportCalls := acc.transportCalls + res.2 }

/-- `AlertManagerPayload`: the parsed webhook body. -/
structure AlertManagerPayload where
  Status : List UInt8
  Alerts : List Alert
  deriving DecidableEq, Repr

/-- The `/send` response fields produced by the dispatch portion of
`SendRequest` (the error-string list has one entry per failure and is not
modelled). -/
structure SendResponse where
  Success : Bool
  Sent : Nat
  Failed : Nat
  deriving DecidableEq, Repr

/-- Dispatch outcome together with its side effects: metrics increments and
the total number of Twilio calls. -/
structure DispatchResult where
  resp : SendResponse
  smsSentInc : Nat
  smsFailedInc : Nat
  alertsProcessedInc : Nat
  transportCalls : Nat
  deriving DecidableEq, Repr

/-- The processing gate of `SendRequest`: status `firing`, or `resolved`
with resolved notifications enabled. -/
def shouldProcess (status : List UInt8) (config : Config) : Bool :=
  status == gs "firing" || (status == gs "resolved" && config.SendResolved)

/-- All (alert, receiver) pairs, alert-major, as iterated by the nested
loops of `SendRequest`. -/
def allPairs (alerts : List Alert) (receivers : List (List UInt8)) :
    List (Alert × List UInt8) :=
  match alerts with
  | [] => []
  | a :: rest => receivers.map (fun r => (a, r)) ++ allPairs rest receivers

/-- The dispatch portion of `Handler.SendRequest` (after content-type,
body-size, JSON and receiver validation): when the gate passes, one unit of
work per (alert, receiver) pair is aggregated under the shared mutex — the
final counters do not depend on completion order, so the concurrent fan-out
is modelled as a left fold — and `Success := failed == 0`; when the gate
fails, the response stays at its initialisation (`Success = true`, zero
counts) and no metrics are touched. -/
def SendRequestDispatch (config : Config) (client : ClientFn)
    (payload : AlertManagerPayload) (receivers : List (List UInt8)) : DispatchResult :=
  if shouldProcess payload.Status config then
    let acc := (allPairs payload.Alerts receivers).foldl
      (unitStep config client payload.Status) ⟨0, 0, 0, 0, 0⟩
    { resp := { Success := acc.failed == 0, Sent := acc.sent, Failed := acc.failed }
      smsSentInc := acc.smsSentInc
      smsFailedInc := acc.smsFailedInc
      alertsProcessedInc := 1
      transportCalls := acc.transportCalls }
  else
    { resp := { Success := true, Sent := 0, Failed := 0 }
      smsSentInc := 0
      smsFailedInc := 0
      alertsProcessedInc := 0
      transportCalls := 0 }

/-- Did `FormatMessage` succeed for this (alert, receiver) pair? -/
def formatOkB (config : Config) (status : List UInt8) (u : Alert × List UInt8) : Bool :=
  match FormatMessage u.1 status config with
  | Except.ok _ => true
  | Except.error _ => false

/-- What the environment does on one HTTP attempt of
`TwilioHTTPClient.SendMessage`: `client.Do` fails with a network error
(characterised by whether it reports `Timeout()` and whether it is
`context.DeadlineExceeded`), reading the response body fails, or a response
with a status code arrives. -/
inductive AttemptOutcome where
  | netErr (isTimeout : Bool) (isDeadlineExceeded : Bool)
  | readErr
  | httpResp (status : Nat) (respBody : List UInt8)
  deriving DecidableEq, Repr

/-- The distinct error results of `SendMessage` (each wraps a distinct
`fmt.Errorf` message in the Go code). -/
inductive SendMessageError where
  | createRequestFailed
  | sendRequestFailed (isTimeout : Bool) (isDeadlineExceeded : Bool)
  | readResponseFailed
  | apiError (status : Nat) (respBody : List UInt8)
  deriving DecidableEq, Repr

/-- Observable behaviour of one `SendMessage` call: the returned error
(`none` = success), the number of HTTP attempts made, and the backoff value
slept before each attempt (`backoff[0] = 0` stands for the skipped sleep
before the first attempt). -/
structure SendTrace where
  result : Option SendMessageError
  attemptsUsed : Nat
  sleepsSeconds : List Nat
  deriving DecidableEq, Repr

/-- `isRetryableNetError`:
`errors.As(err, &netErr) && netErr.Timeout() || errors.Is(err, context.DeadlineExceeded)`. -/
def isRetryableNetError (isTimeout isDeadlineExceeded : Bool) : Bool :=
  isTimeout || isDeadlineExceeded

/-- `backoff := []time.Duration{0, time.Second, 2 * time.Second}` (seconds). -/
def backoffSeconds : List Nat :=
  [0, 1, 2]

/-- The retry loop of `TwilioHTTPClient.SendMessage`
(`for attempt := 0; attempt < twilioMaxRetries; attempt++`), with
`remaining = twilioMaxRetries - attempt` driving the recursion.  On each
iteration: sleep `backoff[attempt]` (a no-op for attempt 0), perform the
request, return `nil` on 2xx, retry on a timeout/deadline network error, a
body-read error, status 429 or 5xx, and return the error immediately
otherwise; when attempts are exhausted the last observed error is
returned. -/
def sendGo (outcomes : Nat → AttemptOutcome) :
    Nat → Nat → Option SendMessageError → List Nat → SendTrace
  | 0, attempt, lastErr, sleeps => ⟨lastErr, attempt, sleeps.reverse⟩
  | remaining + 1, attempt, lastErr, sleeps =>
    let sleeps2 := backoffSeconds.getD attempt 0 :: sleeps
    match outcomes attempt with
    | AttemptOutcome.netErr t d =>
      if isRetryableNetError t d then
        sendGo outcomes remaining (attempt + 1)
          (some (SendMessageError.sendRequestFailed t d)) sleeps2
      else ⟨some (SendMessageError.sendRequestFailed t d), attempt + 1, sleeps2.reverse⟩
    | AttemptOutcome.readErr =>
      sendGo outcomes remaining (attempt + 1)
        (some SendMessageError.readResponseFailed) sleeps2
    | AttemptOutcome.httpResp code body =>
      if 200 ≤ code ∧ code < 300 then ⟨none, attempt + 1, sleeps2.reverse⟩
      else if code = 429 ∨ 500 ≤ code then
        sendGo outcomes remaining (attempt + 1)
          (some (SendMessageError.apiError code body)) sleeps2
      else ⟨some (SendMessageError.apiError code body), attempt + 1, sleeps2.reverse⟩

/-- `TwilioHTTPClient.SendMessage`.  Request construction
(`http.NewRequestWithContext`) is deterministic in the inputs, so when it
fails it does so on the first iteration, before any HTTP attempt or sleep:
that case returns the create-request error immediately.  Otherwise the retry
loop runs with `twilioMaxRetries = 3`. -/
def SendMessage (createRequestOk : Bool) (outcomes : Nat → AttemptOutcome) : SendTrace :=
  if createRequestOk then sendGo outcomes 3 0 none []
  else ⟨some SendMessageError.createRequestFailed, 0, []⟩

/-- Specification-side retry condition of C1: response status 429 or 5xx, a
timeout or deadline-exceeded network error, or a body-read failure. -/
def retryTrigger : AttemptOutcome → Bool
  | AttemptOutcome.netErr t d => t || d
  | AttemptOutcome.readErr => true
  | AttemptOutcome.httpResp code _ => decide (code = 429 ∨ 500 ≤ code)

/-- Specification-side error of one attempt outcome (`none` = 2xx success). -/
def errorOfOutcome : AttemptOutcome → Option SendMessageError
  | AttemptOutcome.netErr t d => some (SendMessageError.sendRequestFailed t d)
  | AttemptOutcome.readErr => some SendMessageError.readResponseFailed
  | AttemptOutcome.httpResp code body =>
    if 200 ≤ code ∧ code < 300 then none else some (SendMessageError.apiError code body)

/-- Specification-side attempt count of C1: stop at the first attempt whose
outcome is not a retry trigger, after at most 3 attempts. -/
def attemptsSpec (outcomes : Nat → AttemptOutcome) : Nat :=
  if retryTrigger (outcomes 0) = false then 1
  else if retryTrigger (outcomes 1) = false then 2
  else 3

/-- `RateLimiter` state from `internal/handler/middleware.go`; times and
durations are in nanoseconds. -/
structure RateLimiter where
  tokens : Int
  max : Int
  lastFill : Int
  interval : Int
  deriving DecidableEq, Repr

/-- `NewRateLimiter(requestsPerMinute)` constructed at time `now`
(`lastFill: time.Now(), interval: time.Minute`). -/
def NewRateLimiter (requestsPerMinute : Int) (now : Int) : RateLimiter :=
  { tokens := requestsPerMinute
    max := requestsPerMinute
    lastFill := now
    interval := 60000000000 }

/-- `RateLimiter.Allow` called at time `now`: lazily refill the window when
it has elapsed, then consume one token if available. -/
def RateLimiter.Allow (rl : RateLimiter) (now : Int) : Bool × RateLimiter :=
  let rl2 := if now - rl.lastFill ≥ rl.interval then
    { rl with tokens := rl.max, lastFill := now } else rl
  if rl2.tokens ≤ 0 then (false, rl2)
  else (true, { rl2 with tokens := rl2.tokens - 1 })

/-- `n` consecutive `Allow()` calls, all at time `now`; returns the results
in order and the final state. -/
def allowRepeat (rl : RateLimiter) (now : Int) : Nat → List Bool × RateLimiter
  | 0 => ([], rl)
  | n + 1 =>
    let r1 := RateLimiter.Allow rl now
    let rest := allowRepeat r1.2 now n
    (r1.1 :: rest.1, rest.2)

/-- The C4 scenario alert: `{annotations:{summary:"Test alert"},
startsAt:"2024-01-15T10:30:00Z"}`, no labels (hence no alert name). -/
def c4Alert : Alert :=
  { Status := gs "firing"
    Labels := []
    Annotations := [(gs "summary", gs "Test alert")]
    StartsAt := gs "2024-01-15T10:30:00Z"
    EndsAt := []
    GeneratorURL := [] }

/-- A configuration with no prefix and default (unset) max length. -/
def plainConfig : Config :=
  { Sender := []
    Receivers := []
    SendResolved := false
    MaxMessageLength := 0
    MessagePfx := []
    DryRun := false }

deriving instance DecidableEq for Except

/-- An alert whose `startsAt` does not parse as RFC3339. -/
def c9Alert : Alert :=
  { Status := gs "firing"
    Labels := []
    Annotations := [(gs "summary", gs "Hello")]
    StartsAt := gs "not-a-date"
    EndsAt := []
    GeneratorURL := [] }

/-- An alert whose summary is a single no-break space (U+00A0, UTF-8 bytes
`C2 A0`) and whose description is absent: blank to `strings.TrimSpace`
(which trims Unicode whitespace), although it contains no ASCII space. -/
def c5UnicodeBlankAlert : Alert :=
  { Status := gs "firing"
    Labels := []
    Annotations := [(gs "summary", [194, 160])]
    StartsAt := []
    EndsAt := []
    GeneratorURL := [] }

/-- An alert with neither summary nor description (whitespace-only summary). -/
def c5BlankAlert : Alert :=
  { Status := gs "firing"
    Labels := []
    Annotations := [(gs "summary", gs "   ")]
    StartsAt := []
    EndsAt := []
    GeneratorURL := [] }

/-- An alert with both a non-blank summary and a non-blank description. -/
def c5SummaryAlert : Alert :=
  { Status := gs "firing"
    Labels := []
    Annotations := [(gs "summary", gs "S"), (gs "description", gs "D")]
    StartsAt := []
    EndsAt := []
    GeneratorURL := [] }

/-- `plainConfig` with dry-run mode enabled. -/
def dryRunConfig : Config :=
  { Sender := []
    Receivers := []
    SendResolved := false
    MaxMessageLength := 0
    MessagePfx := []
    DryRun := true }

end Promtotwilio

namespace Promtotwilio

theorem truncate_isSome (msg : List UInt8) (maxLen : Int) (h : 0 ≤ maxLen) :
    (TruncateMessage msg maxLen).isSome := by
  unfold TruncateMessage goSliceTo goLen
  split
  · rfl
  · rename_i hlen
    push_neg at hlen
    split
    · rename_i h3
      rw [if_pos ⟨h, le_of_lt hlen⟩]
      rfl
    · rename_i h3
      push_neg at h3
      rw [if_pos ⟨by omega, by omega⟩]
      rfl

theorem truncate_len_le (msg : List UInt8) (maxLen : Int) (r : List UInt8)
    (h : 0 ≤ maxLen) (hr : TruncateMessage msg maxLen = some r) :
    goLen r ≤ maxLen := by
  unfold TruncateMessage goSliceTo at hr
  unfold goLen at hr ⊢
  split at hr
  · rename_i hlen
    cases hr
    exact hlen
  · rename_i hlen
    push_neg at hlen
    split at hr
    · rename_i h3
      rw [if_pos ⟨h, le_of_lt hlen⟩] at hr
      cases hr
      rw [List.length_take]
      omega
    · rename_i h3
      push_neg at h3
      rw [if_pos ⟨by omega, by omega⟩] at hr
      simp at hr
      subst hr
      rw [List.length_append, List.length_take]
      have hdots : (gs "...").length = 3 := rfl
      rw [hdots]
      omega

theorem truncate_len_eq (msg : List UInt8) (maxLen : Int) (r : List UInt8)
    (h : 0 ≤ maxLen) (hlt : maxLen < goLen msg)
    (hr : TruncateMessage msg maxLen = some r) :
    goLen r = maxLen := by
  unfold TruncateMessage goSliceTo at hr
  unfold goLen at hr ⊢
  split at hr
  · rename_i hlen
    unfold goLen at hlt
    omega
  · split at hr
    · rename_i h3
      rw [if_pos ⟨h, by unfold goLen at hlt; omega⟩] at hr
      cases hr
      rw [List.length_take]
      unfold goLen at hlt
      omega
    · rename_i h3
      push_neg at h3
      rw [if_pos ⟨by omega, by unfold goLen at hlt; omega⟩] at hr
      simp at hr
      subst hr
      rw [List.length_append, List.length_take]
      have hdots : (gs "...").length = 3 := rfl
      rw [hdots]
      unfold goLen at hlt
      omega

/-- C6: for every byte string `s` and every byte count `maxLen ≥ 0`
(a negative `maxLen` makes the Go slice `msg[:maxLen]` panic, so the claim's
"first maxLen bytes" only has meaning for `maxLen ≥ 0`):
if `len(s) ≤ maxLen` the truncator returns `s` unchanged; otherwise, if
`maxLen ≤ 3` it returns the first `maxLen` bytes with no suffix, and otherwise
the first `maxLen - 3` bytes followed by `"..."`; consequently the result's
byte length is always `≤ maxLen`, and exactly `maxLen` when `len(s) > maxLen`. -/
theorem truncateMessage_cases_and_length (s : List UInt8) (maxLen : Int)
    (h : 0 ≤ maxLen) :
    (goLen s ≤ maxLen → TruncateMessage s maxLen = some s) ∧
    (maxLen < goLen s → maxLen ≤ 3 →
      TruncateMessage s maxLen = some (s.take maxLen.toNat)) ∧
    (maxLen < goLen s → 3 < maxLen →
      TruncateMessage s maxLen = some (s.take (maxLen - 3).toNat ++ gs "...")) ∧
    (∀ r, TruncateMessage s maxLen = some r →
      goLen r ≤ maxLen ∧ (maxLen < goLen s → goLen r = maxLen)) := by
  refine ⟨?_, ?_, ?_, ?_⟩
  · intro hle
    unfold TruncateMessage
    rw [if_pos hle]
  · intro hlt h3
    unfold TruncateMessage goSliceTo
    rw [if_neg (by omega), if_pos h3, if_pos ⟨h, le_of_lt hlt⟩]
  · intro hlt h3
    unfold TruncateMessage goSliceTo
    rw [if_neg (by omega), if_neg (by omega),
      if_pos ⟨by omega, by unfold goLen at hlt ⊢; omega⟩]
    rfl
  · intro r hr
    exact ⟨truncate_len_le s maxLen r h hr,
      fun hlt => truncate_len_eq s maxLen r h hlt hr⟩

/-- Witness for `truncateMessage_cases_and_length` at `s = "hello world"`,
`maxLen = 5`. -/
theorem truncateMessage_cases_and_length_witness :
    (0 : Int) ≤ 5 ∧
    (TruncateMessage (gs "hello world") 5 = some (gs "he...") ∧
      goLen (gs "he...") = 5) := by
  have h := truncateMessage_cases_and_length (gs "hello world") 5 (by decide)
  refine ⟨by decide, ?_, by decide⟩
  have := h.2.2.1 (by decide) (by decide)
  rw [this]
  decide

/-- C7: truncation is idempotent for every `n > 0`:
`truncate(truncate(s, n), n) = truncate(s, n)` (stated on the `some` results:
for `n > 0` no panic is possible). -/
theorem truncateMessage_idempotent (s : List UInt8) (n : Int) (hn : 0 < n) :
    ∀ r, TruncateMessage s n = some r → TruncateMessage r n = some r := by
  intro r hr
  have hle : goLen r ≤ n := truncate_len_le s n r (le_of_lt hn) hr
  unfold TruncateMessage
  rw [if_pos hle]

/-- Witness for `truncateMessage_idempotent` at `s = "abcdefgh"`, `n = 6`. -/
theorem truncateMessage_idempotent_witness :
    (0 : Int) < 6 ∧ TruncateMessage (gs "abcdefgh") 6 = some (gs "abc...") ∧
      TruncateMessage (gs "abc...") 6 = some (gs "abc...") := by
  refine ⟨by decide, by decide, ?_⟩
  exact truncateMessage_idempotent (gs "abcdefgh") 6 (by decide) (gs "abc...")
    (by decide)

theorem isPrefixOf_append_right (sub t u : List UInt8)
    (h : sub.isPrefixOf t = true) : sub.isPrefixOf (t ++ u) = true := by
  rw [List.isPrefixOf_iff_prefix] at h ⊢
  exact h.trans (t.prefix_append u)

theorem hasSub_nil_pat (s : List UInt8) : hasSub s [] = true := by
  cases s with
  | nil => rfl
  | cons c rest => rfl

theorem hasSub_cons (c : UInt8) (rest pat : List UInt8)
    (h : hasSub rest pat = true) : hasSub (c :: rest) pat = true := by
  unfold hasSub
  rw [h, Bool.or_true]

theorem hasSub_of_isPrefixOf (s pat : List UInt8)
    (h : pat.isPrefixOf s = true) : hasSub s pat = true := by
  cases s with
  | nil =>
    cases pat with
    | nil => rfl
    | cons p ps => simp [List.isPrefixOf] at h
  | cons c rest =>
    unfold hasSub
    rw [h, Bool.true_or]

theorem hasSub_append_left (t u sub : List UInt8)
    (h : hasSub t sub = true) : hasSub (t ++ u) sub = true := by
  induction t with
  | nil =>
    unfold hasSub at h
    have hs : sub = [] := List.isEmpty_iff.mp h
    subst hs
    exact hasSub_nil_pat _
  | cons c rest ih =>
    unfold hasSub at h
    rcases Bool.or_eq_true_iff.mp h with hpre | hrest
    · exact hasSub_of_isPrefixOf _ _ (isPrefixOf_append_right sub (c :: rest) u hpre)
    · exact hasSub_cons c _ sub (ih hrest)

theorem hasSub_of_drop (n : Nat) (s pat : List UInt8)
    (h : hasSub (s.drop n) pat = true) : hasSub s pat = true := by
  induction n generalizing s with
  | zero => simpa using h
  | succ m ih =>
    cases s with
    | nil => simpa using h
    | cons c rest =>
      rw [List.drop_succ_cons] at h
      exact hasSub_cons c rest pat (ih rest h)

theorem findAllLabelsFuel_mem (fuel : Nat) (s m : List UInt8)
    (hm : m ∈ findAllLabelsFuel fuel s) : hasSub s m = true := by
  induction fuel generalizing s with
  | zero => simp [findAllLabelsFuel] at hm
  | succ f ih =>
    cases s with
    | nil => simp [findAllLabelsFuel] at hm
    | cons c rest =>
      rcases hmt : matchLabelTail (c :: rest) with _ | k
      · rw [findAllLabelsFuel, hmt] at hm
        exact hasSub_cons c rest m (ih rest hm)
      · rw [findAllLabelsFuel, hmt] at hm
        rcases List.mem_cons.mp hm with heq | hmem
        · subst heq
          exact hasSub_of_isPrefixOf _ _
            (List.isPrefixOf_iff_prefix.mpr (List.take_prefix _ _))
        · exact hasSub_of_drop (9 + k) _ _ (ih _ hmem)

theorem replaceAllFuel_hasSub (old new sub : List UInt8) (fuel : Nat)
    (hold : old ≠ []) (hnew : hasSub new sub = true) :
    ∀ s, s.length ≤ fuel → hasSub s old = true →
      hasSub (replaceAllFuel old new fuel s) sub = true := by
  induction fuel with
  | zero =>
    intro s hlen hocc
    have hs : s = [] := List.length_eq_zero.mp (Nat.le_zero.mp hlen)
    subst hs
    unfold hasSub at hocc
    exact absurd (List.isEmpty_iff.mp hocc) hold
  | succ f ih =>
    intro s hlen hocc
    cases s with
    | nil =>
      unfold hasSub at hocc
      exact absurd (List.isEmpty_iff.mp hocc) hold
    | cons c rest =>
      rw [replaceAllFuel]
      by_cases hpre : old.isPrefixOf (c :: rest) = true
      · rw [if_pos hpre]
        exact hasSub_append_left new _ sub hnew
      · rw [if_neg hpre]
        have hrest : hasSub rest old = true := by
          unfold hasSub at hocc
          rcases Bool.or_eq_true_iff.mp hocc with hp | hr
          · exact absurd hp hpre
          · exact hr
        have := ih rest (by simpa using hlen) hrest
        exact hasSub_cons c _ sub this

theorem replaceAll_hasSub (s old new sub : List UInt8)
    (hold : old ≠ []) (hocc : hasSub s old = true)
    (hnew : hasSub new sub = true) :
    hasSub (replaceAll s old new) sub = true := by
  unfold replaceAll
  rw [if_neg (by simpa [List.isEmpty_iff] using hold)]
  exact replaceAllFuel_hasSub old new sub s.length hold hnew s (Nat.le_refl _) hocc

/-- C3 counterexample: for the input text `$labels.a $labels.b` and an alert
where label `a` has value `$labels.b` and label `b` has value `X`, the text
inserted for `$labels.a` does NOT remain verbatim: the later global pass for
`$labels.b` (matched in the original text) rewrites it, and the output is
`X X` with no occurrence of `$labels.b` at all. -/
theorem findAndReplaceLabels_recursion_counterexample :
    hasSub (Alert.getLabel cexC3Alert (gs "a")) (gs "$labels.b") = true ∧
    FindAndReplaceLabels (gs "$labels.a $labels.b") cexC3Alert = gs "X X" ∧
    hasSub (FindAndReplaceLabels (gs "$labels.a $labels.b") cexC3Alert)
      (gs "$labels.b") = false := by
  refine ⟨by decide, by decide, by decide⟩

/-- C3 amended: the match list is computed once from the original text and a
replacement value is never re-scanned to discover new placeholders to
process; but text inserted by one replacement is subject to the global
passes of the other placeholders matched in the original text.  The
verbatim-survival guarantee therefore holds only absent such interference:
when `$labels.a` is the only placeholder occurrence matched in the input
text and label `a`'s value contains `$labels.b`, the inserted `$labels.b`
text occurs verbatim in the output. -/
theorem findAndReplaceLabels_single_match_verbatim (body : List UInt8)
    (alert : Alert)
    (hfind : findAllLabels body = [gs "$labels.a"])
    (hval : hasSub (Alert.getLabel alert (gs "a")) (gs "$labels.b") = true) :
    hasSub (FindAndReplaceLabels body alert) (gs "$labels.b") = true := by
  have hocc : hasSub body (gs "$labels.a") = true := by
    apply findAllLabelsFuel_mem body.length body
    show _ ∈ findAllLabels body
    rw [hfind]
    exact List.mem_cons_self _ _
  have hstep : replaceStep alert body (gs "$labels.a") =
      replaceAll body (gs "$labels.a") (Alert.getLabel alert (gs "a")) := rfl
  unfold FindAndReplaceLabels
  rw [hfind]
  simp only [List.foldl]
  rw [hstep]
  exact replaceAll_hasSub body (gs "$labels.a") (Alert.getLabel alert (gs "a"))
    (gs "$labels.b") (by decide) hocc hval

/-- Witness for `findAndReplaceLabels_single_match_verbatim` at the input
text `hi $labels.a bye` and the alert of the counterexample. -/
theorem findAndReplaceLabels_single_match_verbatim_witness :
    findAllLabels (gs "hi $labels.a bye") = [gs "$labels.a"] ∧
    hasSub (Alert.getLabel cexC3Alert (gs "a")) (gs "$labels.b") = true ∧
    hasSub (FindAndReplaceLabels (gs "hi $labels.a bye") cexC3Alert)
      (gs "$labels.b") = true := by
  refine ⟨by decide, by decide, ?_⟩
  exact findAndReplaceLabels_single_match_verbatim (gs "hi $labels.a bye")
    cexC3Alert (by decide) (by decide)

theorem formatMessage_eq (alert : Alert) (status : List UInt8) (config : Config) :
    FormatMessage alert status config =
      if trimSpace (selectedText alert) = [] then Except.error FormatError.missingAnnots
      else
        match TruncateMessage
            (pfxPart config ++ resolvedPart status ++ namePart alert ++ coreText alert)
            (effMaxLen config) with
        | some r => Except.ok r
        | none => Except.error FormatError.slicePanic := by
  unfold FormatMessage selectedText coreText namePart resolvedPart pfxPart effMaxLen
  by_cases hname : trimSpace (Alert.getLabel alert (gs "alertname")) = [] <;>
    by_cases hres : status = gs "resolved" <;>
      by_cases hpfx : config.MessagePfx = [] <;>
        simp [hname, hres, hpfx, List.append_assoc, selectedText]

theorem effMaxLen_nonneg (config : Config) : 0 ≤ effMaxLen config := by
  unfold effMaxLen
  split <;> omega

theorem formatMessage_ok (alert : Alert) (status : List UInt8) (config : Config)
    (h : trimSpace (selectedText alert) ≠ []) :
    ∃ r, TruncateMessage
        (pfxPart config ++ resolvedPart status ++ namePart alert ++ coreText alert)
        (effMaxLen config) = some r ∧
      FormatMessage alert status config = Except.ok r := by
  obtain ⟨r, hr⟩ := Option.isSome_iff_exists.mp
    (truncate_isSome (pfxPart config ++ resolvedPart status ++ namePart alert ++ coreText alert)
      (effMaxLen config) (effMaxLen_nonneg config))
  refine ⟨r, hr, ?_⟩
  rw [formatMessage_eq, if_neg h, hr]

/-- C4: the formatter composes the body with the alert-name prefix
innermost, the `RESOLVED: ` marker wrapping that, and the configured custom
prefix outermost, and truncation is applied last to the fully prefixed
string; and on the concrete scenario alert (summary `Test alert`, startsAt
`2024-01-15T10:30:00Z`, status firing, no prefix, no alert name) the body is
exactly `"Test alert" alert starts at Mon, 15 Jan 2024 10:30:00 UTC`. -/
theorem formatMessage_order_and_scenario :
    (∀ (alert : Alert) (status : List UInt8) (config : Config),
      trimSpace (selectedText alert) ≠ [] →
      ∃ r, TruncateMessage
          (pfxPart config ++ resolvedPart status ++ namePart alert ++ coreText alert)
          (effMaxLen config) = some r ∧
        FormatMessage alert status config = Except.ok r) ∧
    FormatMessage c4Alert (gs "firing") plainConfig =
      Except.ok (gs "\"Test alert\" alert starts at Mon, 15 Jan 2024 10:30:00 UTC") := by
  exact ⟨formatMessage_ok, by decide⟩

/-- Witness for the universally quantified part of
`formatMessage_order_and_scenario`, at the scenario alert with status
`resolved`. -/
theorem formatMessage_order_and_scenario_witness :
    trimSpace (selectedText c4Alert) ≠ [] ∧
    (∃ r, TruncateMessage
        (pfxPart plainConfig ++ resolvedPart (gs "resolved") ++ namePart c4Alert ++
          coreText c4Alert) (effMaxLen plainConfig) = some r ∧
      FormatMessage c4Alert (gs "resolved") plainConfig = Except.ok r) := by
  refine ⟨by decide, ?_⟩
  exact formatMessage_order_and_scenario.1 c4Alert (gs "resolved") plainConfig (by decide)

theorem formatMessage_error_iff (alert : Alert) (status : List UInt8) (config : Config) :
    FormatMessage alert status config = Except.error FormatError.missingAnnots ↔
      trimSpace (Alert.getAnn alert (gs "summary")) = [] ∧
      trimSpace (Alert.getAnn alert (gs "description")) = [] := by
  constructor
  · intro herr
    by_cases hsum : trimSpace (Alert.getAnn alert (gs "summary")) = []
    · by_cases hdesc : trimSpace (Alert.getAnn alert (gs "description")) = []
      · exact ⟨hsum, hdesc⟩
      · exfalso
        have hsel : trimSpace (selectedText alert) ≠ [] := by
          unfold selectedText
          rw [if_pos hsum]
          exact hdesc
        obtain ⟨r, _, hok⟩ := formatMessage_ok alert status config hsel
        rw [herr] at hok
        exact Except.noConfusion hok
    · exfalso
      have hsel : trimSpace (selectedText alert) ≠ [] := by
        unfold selectedText
        rw [if_neg hsum]
        exact hsum
      obtain ⟨r, _, hok⟩ := formatMessage_ok alert status config hsel
      rw [herr] at hok
      exact Except.noConfusion hok
  · rintro ⟨hsum, hdesc⟩
    rw [formatMessage_eq]
    rw [if_pos (show trimSpace (selectedText alert) = [] by
      unfold selectedText
      rw [if_pos hsum]
      exact hdesc)]

theorem lookup_setAssoc_ne (m : List (List UInt8 × List UInt8))
    (k v k' : List UInt8) (h : k' ≠ k) :
    (setAssoc m k v).lookup k' = m.lookup k' := by
  induction m with
  | nil => simp [setAssoc, List.lookup, beq_eq_false_iff_ne.mpr h]
  | cons p rest ih =>
    obtain ⟨k0, v0⟩ := p
    unfold setAssoc
    by_cases h0 : k0 = k
    · subst h0
      rw [if_pos rfl]
      simp [List.lookup, beq_eq_false_iff_ne.mpr h]
    · rw [if_neg h0]
      simp only [List.lookup]
      cases hbe : (k' == k0) <;> simp [ih]

theorem getAnn_withDesc_ne (a : Alert) (d name : List UInt8)
    (h : name ≠ gs "description") :
    Alert.getAnn (Alert.withDesc a d) name = Alert.getAnn a name := by
  simp [Alert.getAnn, Alert.withDesc, lookup_setAssoc_ne _ _ _ _ h]

theorem formatMessage_desc_frame (alert : Alert) (status : List UInt8)
    (config : Config) (d : List UInt8)
    (hsum : trimSpace (Alert.getAnn alert (gs "summary")) ≠ []) :
    FormatMessage (Alert.withDesc alert d) status config =
      FormatMessage alert status config := by
  have hann := getAnn_withDesc_ne alert d (gs "summary") (by decide)
  have hsel : selectedText (Alert.withDesc alert d) = selectedText alert := by
    unfold selectedText
    rw [hann, if_neg hsum, if_neg hsum]
  have hcore : coreText (Alert.withDesc alert d) = coreText alert := by
    unfold coreText
    rw [hsel]
    rfl
  rw [formatMessage_eq, formatMessage_eq, hsel, hcore]
  rfl

/-- C5: the formatter selects `annotations.summary` when it is non-blank
after trimming (so the description is then irrelevant: changing it does not
change the output), else `annotations.description`; when both are blank or
absent, formatting fails with the missing-summary-and-description error —
and exactly then — and `sendMessage` makes no transport call for that
alert. -/
theorem formatMessage_summary_precedence (alert : Alert) (status : List UInt8)
    (config : Config) :
    (FormatMessage alert status config = Except.error FormatError.missingAnnots ↔
      trimSpace (Alert.getAnn alert (gs "summary")) = [] ∧
      trimSpace (Alert.getAnn alert (gs "description")) = []) ∧
    (trimSpace (Alert.getAnn alert (gs "summary")) ≠ [] →
      ∀ d : List UInt8, FormatMessage (Alert.withDesc alert d) status config =
        FormatMessage alert status config) ∧
    (∀ (client : ClientFn) (receiver : List UInt8),
      trimSpace (Alert.getAnn alert (gs "summary")) = [] →
      trimSpace (Alert.getAnn alert (gs "description")) = [] →
      sendMessageUnit config client receiver alert status = (false, 0)) := by
  refine ⟨formatMessage_error_iff alert status config,
    fun hsum d => formatMessage_desc_frame alert status config d hsum, ?_⟩
  intro client receiver hsum hdesc
  unfold sendMessageUnit
  rw [(formatMessage_error_iff alert status config).mpr ⟨hsum, hdesc⟩]

/-- Witness for `formatMessage_summary_precedence`: an ASCII-blank alert and
a Unicode-blank alert (summary = U+00A0 only) both fail with no transport
call, and with a non-blank summary the description is irrelevant. -/
theorem formatMessage_summary_precedence_witness :
    (trimSpace (Alert.getAnn c5BlankAlert (gs "summary")) = [] ∧
      trimSpace (Alert.getAnn c5BlankAlert (gs "description")) = [] ∧
      sendMessageUnit plainConfig (fun _ _ _ => true) (gs "+1") c5BlankAlert
        (gs "firing") = (false, 0)) ∧
    (trimSpace (Alert.getAnn c5UnicodeBlankAlert (gs "summary")) = [] ∧
      trimSpace (Alert.getAnn c5UnicodeBlankAlert (gs "description")) = [] ∧
      sendMessageUnit plainConfig (fun _ _ _ => true) (gs "+1")
        c5UnicodeBlankAlert (gs "firing") = (false, 0)) ∧
    (trimSpace (Alert.getAnn c5SummaryAlert (gs "summary")) ≠ [] ∧
      FormatMessage (Alert.withDesc c5SummaryAlert (gs "other")) (gs "firing")
        plainConfig = FormatMessage c5SummaryAlert (gs "firing") plainConfig) := by
  refine ⟨⟨by decide, by decide, ?_⟩, ⟨by decide, by decide, ?_⟩, by decide, ?_⟩
  · exact (formatMessage_summary_precedence c5BlankAlert (gs "firing")
      plainConfig).2.2 (fun _ _ _ => true) (gs "+1") (by decide) (by decide)
  · exact (formatMessage_summary_precedence c5UnicodeBlankAlert (gs "firing")
      plainConfig).2.2 (fun _ _ _ => true) (gs "+1") (by decide) (by decide)
  · exact (formatMessage_summary_precedence c5SummaryAlert (gs "firing")
      plainConfig).2.1 (by decide) (gs "other")

/-- C9: for every alert whose `startsAt` is absent (empty) or does not parse
as RFC3339, formatting succeeds (given a non-blank selected text) and the
body is the prefixed interpolated text unwrapped: no surrounding quotes and
no ` alert starts at ` suffix are added (truncation still applies last, as
for every message). -/
theorem formatMessage_no_timestamp (alert : Alert) (status : List UInt8)
    (config : Config)
    (hts : alert.StartsAt = [] ∨ parseRFC3339 alert.StartsAt = none)
    (hsel : trimSpace (selectedText alert) ≠ []) :
    ∃ r, TruncateMessage
        (pfxPart config ++ resolvedPart status ++ namePart alert ++
          FindAndReplaceLabels (selectedText alert) alert)
        (effMaxLen config) = some r ∧
      FormatMessage alert status config = Except.ok r := by
  have hcore : coreText alert = FindAndReplaceLabels (selectedText alert) alert := by
    unfold coreText
    rcases hts with h | h
    · simp [h]
    · by_cases he : alert.StartsAt = []
      · simp [he]
      · simp [he, h]
  rw [← hcore]
  exact formatMessage_ok alert status config hsel

/-- Witness for `formatMessage_no_timestamp` at an alert with summary
`Hello` and the unparsable `startsAt` value `not-a-date`. -/
theorem formatMessage_no_timestamp_witness :
    parseRFC3339 c9Alert.StartsAt = none ∧
    trimSpace (selectedText c9Alert) ≠ [] ∧
    (∃ r, TruncateMessage
        (pfxPart plainConfig ++ resolvedPart (gs "firing") ++ namePart c9Alert ++
          FindAndReplaceLabels (selectedText c9Alert) c9Alert)
        (effMaxLen plainConfig) = some r ∧
      FormatMessage c9Alert (gs "firing") plainConfig = Except.ok r) := by
  refine ⟨by decide, by decide, ?_⟩
  exact formatMessage_no_timestamp c9Alert (gs "firing") plainConfig
    (Or.inr (by decide)) (by decide)

theorem foldl_unitStep_counts (config : Config) (client : ClientFn)
    (status : List UInt8) (us : List (Alert × List UInt8)) :
    ∀ acc : UnitAcc,
      (us.foldl (unitStep config client status) acc).sent +
        (us.foldl (unitStep config client status) acc).failed =
        acc.sent + acc.failed + us.length := by
  induction us with
  | nil =>
    intro acc
    simp
  | cons u rest ih =>
    intro acc
    rw [List.foldl_cons, ih]
    have hstep : (unitStep config client status acc u).sent +
        (unitStep config client status acc u).failed = acc.sent + acc.failed + 1 := by
      by_cases h : (sendMessageUnit config client u.2 u.1 status).1 = true
      · simp [unitStep, h]
        omega
      · simp [unitStep, h]
        omega
    rw [hstep]
    simp
    omega

theorem allPairs_length (alerts : List Alert) (receivers : List (List UInt8)) :
    (allPairs alerts receivers).length = alerts.length * receivers.length := by
  induction alerts with
  | nil => simp [allPairs]
  | cons a rest ih =>
    simp [allPairs, ih, Nat.succ_mul]
    omega

/-- C2: when dispatch is attempted (status firing, or resolved with resolved
notifications enabled) the summary satisfies `sent + failed = N * M` and
`success = (failed == 0)`; when the gate skips dispatch, `sent` and `failed`
are 0 and `success` is `true` (not an error). -/
theorem dispatch_counts (config : Config) (client : ClientFn)
    (payload : AlertManagerPayload) (receivers : List (List UInt8))
    (hrecv : receivers ≠ []) :
    (shouldProcess payload.Status config = true →
      (SendRequestDispatch config client payload receivers).resp.Sent +
        (SendRequestDispatch config client payload receivers).resp.Failed =
        payload.Alerts.length * receivers.length ∧
      (SendRequestDispatch config client payload receivers).resp.Success =
        ((SendRequestDispatch config client payload receivers).resp.Failed == 0)) ∧
    (shouldProcess payload.Status config = false →
      (SendRequestDispatch config client payload receivers).resp.Sent = 0 ∧
      (SendRequestDispatch config client payload receivers).resp.Failed = 0 ∧
      (SendRequestDispatch config client payload receivers).resp.Success = true) := by
  constructor
  · intro hsp
    have h := foldl_unitStep_counts config client payload.Status
      (allPairs payload.Alerts receivers) ⟨0, 0, 0, 0, 0⟩
    have hlen := allPairs_length payload.Alerts receivers
    simp only [SendRequestDispatch, hsp, if_true]
    simp at h
    constructor
    · omega
    · trivial
  · intro hsp
    unfold SendRequestDispatch
    rw [if_neg (by simp [hsp])]
    exact ⟨rfl, rfl, rfl⟩

/-- Witness for `dispatch_counts`: 2 alerts (one of which cannot be
formatted) × 2 receivers gives `sent + failed = 4`, and a non-firing status
gives the all-zero successful response. -/
theorem dispatch_counts_witness :
    ([gs "+1", gs "+2"] ≠ ([] : List (List UInt8))) ∧
    (shouldProcess (gs "firing") plainConfig = true ∧
      (SendRequestDispatch plainConfig (fun _ _ _ => true)
          { Status := gs "firing", Alerts := [c5SummaryAlert, c5BlankAlert] }
          [gs "+1", gs "+2"]).resp.Sent +
        (SendRequestDispatch plainConfig (fun _ _ _ => true)
          { Status := gs "firing", Alerts := [c5SummaryAlert, c5BlankAlert] }
          [gs "+1", gs "+2"]).resp.Failed = 4) ∧
    (shouldProcess (gs "resolved") plainConfig = false ∧
      (SendRequestDispatch plainConfig (fun _ _ _ => true)
          { Status := gs "resolved", Alerts := [c5SummaryAlert, c5BlankAlert] }
          [gs "+1", gs "+2"]).resp.Sent = 0) := by
  refine ⟨by decide, ⟨by decide, ?_⟩, by decide, ?_⟩
  · have h := (dispatch_counts plainConfig (fun _ _ _ => true)
      { Status := gs "firing", Alerts := [c5SummaryAlert, c5BlankAlert] }
      [gs "+1", gs "+2"] (by decide)).1 (by decide)
    rw [h.1]
    decide
  · exact ((dispatch_counts plainConfig (fun _ _ _ => true)
      { Status := gs "resolved", Alerts := [c5SummaryAlert, c5BlankAlert] }
      [gs "+1", gs "+2"] (by decide)).2 (by decide)).1

theorem sendMessageUnit_dryRun (config : Config) (client : ClientFn)
    (receiver : List UInt8) (alert : Alert) (status : List UInt8)
    (hdry : config.DryRun = true) :
    sendMessageUnit config client receiver alert status =
      (formatOkB config status (alert, receiver), 0) := by
  unfold sendMessageUnit formatOkB
  cases FormatMessage alert status config with
  | error e => rfl
  | ok body => simp [hdry]

theorem foldl_unitStep_dryRun (config : Config) (client : ClientFn)
    (status : List UInt8) (hdry : config.DryRun = true)
    (us : List (Alert × List UInt8)) :
    ∀ acc : UnitAcc,
      (us.foldl (unitStep config client status) acc).smsSentInc = acc.smsSentInc ∧
      (us.foldl (unitStep config client status) acc).smsFailedInc = acc.smsFailedInc ∧
      (us.foldl (unitStep config client status) acc).transportCalls = acc.transportCalls ∧
      (us.foldl (unitStep config client status) acc).sent =
        acc.sent + (us.filter (formatOkB config status)).length ∧
      (us.foldl (unitStep config client status) acc).failed =
        acc.failed + (us.filter (fun u => !(formatOkB config status u))).length := by
  induction us with
  | nil =>
    intro acc
    simp
  | cons u rest ih =>
    intro acc
    rw [List.foldl_cons]
    have hu : unitStep config client status acc u =
        (if formatOkB config status u then
          { acc with sent := acc.sent + 1 }
        else
          { acc with failed := acc.failed + 1 }) := by
      unfold unitStep
      rw [sendMessageUnit_dryRun config client u.2 u.1 status hdry]
      by_cases hok : formatOkB config status u = true
      · simp [hok, hdry]
      · simp at hok
        simp [hok, hdry]
    rw [hu]
    by_cases hok : formatOkB config status u = true
    · rw [if_pos hok]
      have := ih { acc with sent := acc.sent + 1 }
      simp only [this]
      have hu2 : u = (u.1, u.2) := rfl
      simp [List.filter_cons, hok]
      omega
    · simp at hok
      rw [if_neg (by simp [hok])]
      have := ih { acc with failed := acc.failed + 1 }
      simp only [this]
      simp [List.filter_cons, hok]
      omega

/-- C10: with dry-run enabled, every dispatch leaves the SMS-sent and
SMS-failed metrics counters unchanged and makes no transport call, yet each
unit's outcome is still counted in the response: a unit that formats
successfully counts as sent, a unit that fails to format counts as
failed. -/
theorem dispatch_dryRun_frame (config : Config) (client : ClientFn)
    (payload : AlertManagerPayload) (receivers : List (List UInt8))
    (hdry : config.DryRun = true) :
    (SendRequestDispatch config client payload receivers).smsSentInc = 0 ∧
    (SendRequestDispatch config client payload receivers).smsFailedInc = 0 ∧
    (SendRequestDispatch config client payload receivers).transportCalls = 0 ∧
    (shouldProcess payload.Status config = true →
      (SendRequestDispatch config client payload receivers).resp.Sent =
        ((allPairs payload.Alerts receivers).filter
          (formatOkB config payload.Status)).length ∧
      (SendRequestDispatch config client payload receivers).resp.Failed =
        ((allPairs payload.Alerts receivers).filter
          (fun u => !(formatOkB config payload.Status u))).length) := by
  by_cases hsp : shouldProcess payload.Status config = true
  · have h := foldl_unitStep_dryRun config client payload.Status hdry
      (allPairs payload.Alerts receivers) ⟨0, 0, 0, 0, 0⟩
    simp only [SendRequestDispatch, hsp, if_true]
    simp at h
    exact ⟨h.1, h.2.1, h.2.2.1, fun _ => ⟨h.2.2.2.1, h.2.2.2.2⟩⟩
  · unfold SendRequestDispatch
    rw [if_neg hsp]
    exact ⟨rfl, rfl, rfl, fun hc => absurd hc hsp⟩

/-- Witness for `dispatch_dryRun_frame`: dry-run dispatch of one formattable
and one unformattable alert to two receivers touches no SMS metrics, makes
no transport call, and still reports `sent = 2`, `failed = 2`. -/
theorem dispatch_dryRun_frame_witness :
    dryRunConfig.DryRun = true ∧
    (SendRequestDispatch dryRunConfig (fun _ _ _ => true)
        { Status := gs "firing", Alerts := [c5SummaryAlert, c5BlankAlert] }
        [gs "+1", gs "+2"]).smsSentInc = 0 ∧
    (SendRequestDispatch dryRunConfig (fun _ _ _ => true)
        { Status := gs "firing", Alerts := [c5SummaryAlert, c5BlankAlert] }
        [gs "+1", gs "+2"]).transportCalls = 0 := by
  have h := dispatch_dryRun_frame dryRunConfig (fun _ _ _ => true)
    { Status := gs "firing", Alerts := [c5SummaryAlert, c5BlankAlert] }
    [gs "+1", gs "+2"] (by decide)
  exact ⟨by decide, h.1, h.2.2.1⟩

theorem sendGo_step (outcomes : Nat → AttemptOutcome) (rem attempt : Nat)
    (lastErr : Option SendMessageError) (sleeps : List Nat) :
    sendGo outcomes (rem + 1) attempt lastErr sleeps =
      if retryTrigger (outcomes attempt) = true then
        sendGo outcomes rem (attempt + 1) (errorOfOutcome (outcomes attempt))
          (backoffSeconds.getD attempt 0 :: sleeps)
      else
        ⟨errorOfOutcome (outcomes attempt), attempt + 1,
          (backoffSeconds.getD attempt 0 :: sleeps).reverse⟩ := by
  rcases ho : outcomes attempt with ⟨t, d⟩ | _ | ⟨code, body⟩
  · by_cases htd : (t || d) = true
    · simp [sendGo, ho, retryTrigger, errorOfOutcome, isRetryableNetError, htd]
    · simp [sendGo, ho, retryTrigger, errorOfOutcome, isRetryableNetError, htd]
  · simp [sendGo, ho, retryTrigger, errorOfOutcome]
  · by_cases h2 : 200 ≤ code ∧ code < 300
    · have hr : ¬(code = 429 ∨ 500 ≤ code) := by omega
      simp [sendGo, ho, retryTrigger, errorOfOutcome, h2, hr]
    · by_cases hr : code = 429 ∨ 500 ≤ code
      · simp [sendGo, ho, retryTrigger, errorOfOutcome, h2, hr]
      · simp [sendGo, ho, retryTrigger, errorOfOutcome, h2, hr]

/-- C1: `SendMessage` makes up to 3 attempts, sleeping the fixed schedule 0s
before attempt 1, 1s before attempt 2 and 2s before attempt 3; it retries an
attempt exactly when the response status is 429 or 5xx, the request times
out or fails with a deadline-exceeded error, or reading the response body
fails; any other outcome (2xx success, other statuses including non-429
4xx, non-timeout network errors) ends the loop at once, a failure to
construct the request fails immediately with no attempt, and the error
returned is always the last observed one (`none` on 2xx success). -/
theorem sendMessage_retry_policy (createRequestOk : Bool)
    (outcomes : Nat → AttemptOutcome) :
    (createRequestOk = false →
      SendMessage createRequestOk outcomes =
        ⟨some SendMessageError.createRequestFailed, 0, []⟩) ∧
    (createRequestOk = true →
      SendMessage createRequestOk outcomes =
        ⟨errorOfOutcome (outcomes (attemptsSpec outcomes - 1)),
          attemptsSpec outcomes,
          (List.range (attemptsSpec outcomes)).map
            (fun i => backoffSeconds.getD i 0)⟩) ∧
    attemptsSpec outcomes ≤ 3 ∧
    (∀ i, i + 1 < attemptsSpec outcomes → retryTrigger (outcomes i) = true) ∧
    (attemptsSpec outcomes < 3 →
      retryTrigger (outcomes (attemptsSpec outcomes - 1)) = false) := by
  refine ⟨?_, ?_, ?_, ?_, ?_⟩
  · intro h
    subst h
    rfl
  · intro h
    subst h
    show sendGo outcomes 3 0 none [] = _
    rw [show (3 : Nat) = 2 + 1 from rfl, sendGo_step]
    by_cases t0 : retryTrigger (outcomes 0) = true
    · rw [if_pos t0]
      rw [show (2 : Nat) = 1 + 1 from rfl, sendGo_step]
      by_cases t1 : retryTrigger (outcomes 1) = true
      · rw [if_pos t1]
        rw [show (1 : Nat) = 0 + 1 from rfl, sendGo_step]
        have ha : attemptsSpec outcomes = 3 := by
          unfold attemptsSpec
          rw [if_neg (by simp [t0]), if_neg (by simp [t1])]
        rw [ha]
        by_cases t2 : retryTrigger (outcomes 2) = true
        · rw [if_pos t2]
          rfl
        · rw [if_neg t2]
          rfl
      · rw [if_neg t1]
        have ha : attemptsSpec outcomes = 2 := by
          unfold attemptsSpec
          rw [if_neg (by simp [t0]), if_pos (by simpa using t1)]
        rw [ha]
        rfl
    · rw [if_neg t0]
      have ha : attemptsSpec outcomes = 1 := by
        unfold attemptsSpec
        rw [if_pos (by simpa using t0)]
      rw [ha]
      rfl
  · unfold attemptsSpec
    split
    · omega
    · split <;> omega
  · intro i hi
    unfold attemptsSpec at hi
    by_cases t0 : retryTrigger (outcomes 0) = false
    · rw [if_pos t0] at hi
      omega
    · rw [if_neg t0] at hi
      by_cases t1 : retryTrigger (outcomes 1) = false
      · rw [if_pos t1] at hi
        have hz : i = 0 := by omega
        subst hz
        simpa using t0
      · rw [if_neg t1] at hi
        have hz : i = 0 ∨ i = 1 := by omega
        rcases hz with hz | hz <;> subst hz
        · simpa using t0
        · simpa using t1
  · intro h3
    by_cases t0 : retryTrigger (outcomes 0) = false
    · have ha : attemptsSpec outcomes = 1 := by
        unfold attemptsSpec
        rw [if_pos t0]
      rw [ha]
      exact t0
    · by_cases t1 : retryTrigger (outcomes 1) = false
      · have ha : attemptsSpec outcomes = 2 := by
          unfold attemptsSpec
          rw [if_neg t0, if_pos t1]
        rw [ha]
        exact t1
      · have ha : attemptsSpec outcomes = 3 := by
          unfold attemptsSpec
          rw [if_neg t0, if_neg t1]
        rw [ha] at h3
        omega

/-- Witness for `sendMessage_retry_policy`: the transport returns 503 twice
and then 201; the call makes 3 attempts with the sleep schedule
`[0s, 1s, 2s]` and succeeds, and a failure to construct the request makes no
attempt. -/
theorem sendMessage_retry_policy_witness :
    SendMessage true
        (fun i => if i ≤ 1 then AttemptOutcome.httpResp 503 (gs "overloaded")
          else AttemptOutcome.httpResp 201 (gs "created")) =
      ⟨none, 3, [0, 1, 2]⟩ ∧
    SendMessage false
        (fun i => if i ≤ 1 then AttemptOutcome.httpResp 503 (gs "overloaded")
          else AttemptOutcome.httpResp 201 (gs "created")) =
      ⟨some SendMessageError.createRequestFailed, 0, []⟩ := by
  constructor
  · have h := (sendMessage_retry_policy true
      (fun i => if i ≤ 1 then AttemptOutcome.httpResp 503 (gs "overloaded")
        else AttemptOutcome.httpResp 201 (gs "created"))).2.1 rfl
    rw [h]
    decide
  · exact (sendMessage_retry_policy false
      (fun i => if i ≤ 1 then AttemptOutcome.httpResp 503 (gs "overloaded")
        else AttemptOutcome.httpResp 201 (gs "created"))).1 rfl

theorem allowRepeat_no_reset (now : Int) :
    ∀ (k tn : Nat) (rl : RateLimiter),
      rl.tokens = (tn : Int) → now - rl.lastFill < rl.interval →
      (allowRepeat rl now k).1 =
        List.replicate (min k tn) true ++ List.replicate (k - tn) false := by
  intro k
  induction k with
  | zero =>
    intro tn rl ht hw
    simp [allowRepeat]
  | succ n ih =>
    intro tn rl ht hw
    have hnores : ¬ (now - rl.lastFill ≥ rl.interval) := by omega
    show (RateLimiter.Allow rl now).1 ::
        (allowRepeat (RateLimiter.Allow rl now).2 now n).1 = _
    unfold RateLimiter.Allow
    rw [if_neg hnores]
    cases tn with
    | zero =>
      have hz : rl.tokens ≤ 0 := by rw [ht]; simp
      rw [if_pos hz]
      show false :: (allowRepeat rl now n).1 = _
      rw [ih 0 rl ht hw]
      simp [List.replicate_succ]
    | succ s =>
      have hz : ¬ rl.tokens ≤ 0 := by rw [ht]; push_cast; omega
      rw [if_neg hz]
      have ht2 : ({ rl with tokens := rl.tokens - 1 } : RateLimiter).tokens = (s : Int) := by
        show rl.tokens - 1 = (s : Int)
        rw [ht]
        push_cast
        omega
      show true :: (allowRepeat { rl with tokens := rl.tokens - 1 } now n).1 = _
      rw [ih s { rl with tokens := rl.tokens - 1 } ht2 hw]
      rw [Nat.succ_min_succ, Nat.succ_sub_succ]
      simp [List.replicate_succ]

/-- C8: for a fresh limiter of capacity `max ≥ 1`, the first `max`
consecutive `Allow()` calls in the window return `true` and the
`(max+1)`-th returns `false`; once the window length has elapsed since the
last refill, the next `Allow()` refills to `max`, consumes one token
(leaving `max - 1`) and returns `true`, recording the new window start; and
`0 ≤ tokens ≤ max` is preserved by every `Allow()` call. -/
theorem rateLimiter_window (m : Nat) (t0 : Int) (hm : 1 ≤ m) :
    (allowRepeat (NewRateLimiter (m : Int) t0) t0 (m + 1)).1 =
      List.replicate m true ++ [false] ∧
    (∀ (rl : RateLimiter) (now : Int), 1 ≤ rl.max →
      rl.interval ≤ now - rl.lastFill →
      (RateLimiter.Allow rl now).1 = true ∧
      (RateLimiter.Allow rl now).2.tokens = rl.max - 1 ∧
      (RateLimiter.Allow rl now).2.lastFill = now ∧
      (RateLimiter.Allow rl now).2.max = rl.max) ∧
    (∀ (rl : RateLimiter) (now : Int), 0 ≤ rl.tokens → rl.tokens ≤ rl.max →
      1 ≤ rl.max →
      0 ≤ (RateLimiter.Allow rl now).2.tokens ∧
      (RateLimiter.Allow rl now).2.tokens ≤ rl.max ∧
      (RateLimiter.Allow rl now).2.max = rl.max) := by
  refine ⟨?_, ?_, ?_⟩
  · have hw : t0 - (NewRateLimiter (m : Int) t0).lastFill <
        (NewRateLimiter (m : Int) t0).interval := by
      norm_num [NewRateLimiter]
    have h := allowRepeat_no_reset t0 (m + 1) m (NewRateLimiter (m : Int) t0) rfl hw
    rw [h]
    have h1 : min (m + 1) m = m := by omega
    have h2 : m + 1 - m = 1 := by omega
    rw [h1, h2]
    rfl
  · intro rl now h1 h2
    unfold RateLimiter.Allow
    rw [if_pos h2]
    rw [if_neg (show ¬ ({ rl with tokens := rl.max, lastFill := now } :
      RateLimiter).tokens ≤ 0 from by simp <;> omega)]
    refine ⟨rfl, by simp, by simp, by simp⟩
  · intro rl now ht0 htm h1
    unfold RateLimiter.Allow
    by_cases hres : now - rl.lastFill ≥ rl.interval
    · rw [if_pos hres]
      rw [if_neg (show ¬ ({ rl with tokens := rl.max, lastFill := now } :
        RateLimiter).tokens ≤ 0 from by simp <;> omega)]
      refine ⟨by simp <;> omega, by simp <;> omega, by simp⟩
    · rw [if_neg hres]
      by_cases hz : rl.tokens ≤ 0
      · rw [if_pos hz]
        exact ⟨ht0, htm, rfl⟩
      · rw [if_neg hz]
        refine ⟨by simp <;> omega, by simp <;> omega, by simp⟩

/-- Witness for `rateLimiter_window` at capacity 2: three calls in a fresh
window give `[true, true, false]`, and a call one window after the last
refill succeeds again. -/
theorem rateLimiter_window_witness :
    (1 : Nat) ≤ 2 ∧
    (allowRepeat (NewRateLimiter 2 0) 0 3).1 = [true, true, false] ∧
    (RateLimiter.Allow
        { tokens := 0, max := 2, lastFill := 0, interval := 60000000000 }
        60000000000).1 = true := by
  have h := rateLimiter_window 2 0 (by decide)
  refine ⟨by decide, ?_, ?_⟩
  · simpa using h.1
  · exact (h.2.1 { tokens := 0, max := 2, lastFill := 0, interval := 60000000000 }
      60000000000 (by norm_num) (by norm_num)).1

end Promtotwilio
